import Mathlib

/-!
Verification of the module-structure traversal and mutation engine of
`CreateAndBindRequirement.For_Gemini.py` and its two refactored variants
(`...For_GeminiReturnV2.py`, `...For_GeminiReturnV4.py`).

The XML documents handled by the scripts are modelled as ordered trees of
tagged elements (`Elem`); attribute values play no role in the verified
claims, so elements carry only their tag and child list.  lxml operations
are modelled functionally: `Element.findall(path)` for a child-axis path
becomes `pathMatches`, and in-place `slot.append(child)` on the element
found first becomes `updateFirstPath` applied to the whole document.
-/

/-- An XML element: a tag plus the ordered list of child elements
(`lxml.etree._Element`, as used by the scripts). -/
inductive Elem where
  | mk (tag : String) (children : List Elem)

def Elem.tag : Elem → String
  | .mk t _ => t

def Elem.children : Elem → List Elem
  | .mk _ cs => cs

mutual

/-- Weight of an element, used as the termination measure of the manual-stack
walker: exactly the number of loop iterations `iterwalk` spends on it. -/
def esize : Elem → Nat
  | .mk _ cs => 2 + esizeList cs

def esizeList : List Elem → Nat
  | [] => 0
  | c :: cs => esize c + 1 + esizeList cs

end

/-- `events = events or ["start","end"]` in both walkers. -/
def normEvents (events : List String) : List String :=
  if events = [] then ["start", "end"] else events

/-- The `(not tags or elnow.tag in tags) and "start" in events` guard. -/
def emitGuard (tags events : List String) (kind : String) (e : Elem) : Bool :=
  (tags = [] || e.tag ∈ tags) && kind ∈ events

mutual

/-- `recursiveiterator(el)` of `iterwalk1` (the recursive walker,
`CreateAndBindRequirement.For_Gemini.py` lines 181-187): yield a start for
`el` when the tag/event filters allow, walk the children, yield an end. -/
def iterwalk1Aux (events tags : List String) : Elem → List (String × Elem)
  | Elem.mk t cs =>
      (if emitGuard tags events "start" (Elem.mk t cs) then [("start", Elem.mk t cs)] else [])
        ++ iterwalk1List events tags cs
        ++ (if emitGuard tags events "end" (Elem.mk t cs) then [("end", Elem.mk t cs)] else [])
termination_by e => esize e
decreasing_by simp only [esize]; omega

/-- `for child in list(el): yield from recursiveiterator(child)`. -/
def iterwalk1List (events tags : List String) : List Elem → List (String × Elem)
  | [] => []
  | c :: cs => iterwalk1Aux events tags c ++ iterwalk1List events tags cs
termination_by cs => esizeList cs
decreasing_by
  all_goals simp only [esizeList]
  all_goals omega

end

/-- `iterwalk1(root, events, tags)`: the top call suppresses the start/end of
the root itself (`suppressyield=True`), so only the subtrees of the root's
children are walked. -/
def iterwalk1 (root : Elem) (events tags : List String) : List (String × Elem) :=
  iterwalk1List (normEvents events) tags root.children

/-- One stack entry of the manual-stack walker: the element, and `none`
before its start has been processed, `some remaining` afterwards
(`stack` entries `[el, None]` / `[el, children]` in the Python). -/
abbrev WalkEntry := Elem × Option (List Elem)

/-- Termination measure for `iterwalkRun`: every loop iteration decreases it
by one. -/
def stackWeight : List WalkEntry → Nat
  | [] => 0
  | (e, none) :: rest => esize e + stackWeight rest
  | (_, some cs) :: rest => 1 + esizeList cs + stackWeight rest

/-- The `while stack:` loop of `iterwalk` (the manual-stack walker, lines
150-168 of `CreateAndBindRequirement.For_Gemini.py`).  The Python stack grows
at the end (`stack[-1]` is the active entry); here the head of the list is
the top of the stack.  The `len(stack) > 1` guard on the end event becomes
`rest ≠ []`. -/
def iterwalkRun (events tags : List String) (stack : List WalkEntry) :
    List (String × Elem) :=
  match stack with
  | [] => []
  | (Elem.mk t cs, none) :: rest =>
      (if emitGuard tags events "start" (Elem.mk t cs) then [("start", Elem.mk t cs)] else [])
        ++ iterwalkRun events tags ((Elem.mk t cs, some cs) :: rest)
  | (e, some (c :: cs)) :: rest =>
      iterwalkRun events tags ((c, none) :: (e, some cs) :: rest)
  | (e, some []) :: rest =>
      (if !rest.isEmpty && emitGuard tags events "end" e then [("end", e)] else [])
        ++ iterwalkRun events tags rest
termination_by stackWeight stack
decreasing_by
  all_goals simp only [stackWeight, esize, esizeList]
  all_goals omega

/-- `iterwalk(root, events, tags)`: the initial stack is
`[[root, list(root)]]` — the root enters with its children already expanded,
so no start event is ever emitted for the root itself. -/
def iterwalk (root : Elem) (events tags : List String) : List (String × Elem) :=
  iterwalkRun (normEvents events) tags [(root, some root.children)]

/-- All elements matched by a child-axis path (`a/b/c`) below `e`, in
document order — the semantics of `lxml.etree._Element.findall` /
`rdfxml.xml_find_elements` for the paths the scripts use. -/
def pathMatches : List String → Elem → List Elem
  | [], e => [e]
  | t :: ts, e =>
      e.children.flatMap (fun c => if c.tag = t then pathMatches ts c else [])

/-- Navigation through the *first* child of each required tag, one path
segment at a time.  This is the spec's wording of the fixed policy slot:
"the children-container of the first child-binding of the root's first
child-binding". -/
def navFirsts : List String → Elem → Option Elem
  | [], e => some e
  | t :: ts, e =>
      match e.children.find? (fun c => c.tag = t) with
      | none => none
      | some c => navFirsts ts c

/-- The hardcoded insertion xpath of `bind_artifact_to_module`
(`CreateAndBindRequirement.For_GeminiReturnV4.py` line 147). -/
def slotPath : List String :=
  ["rm_modules:Binding", "rm_modules:childBindings",
   "rm_modules:Binding", "rm_modules:childBindings"]

/-- Errors of the structure-binding flows. -/
inductive BindError where
  | insertionSlotNotFound
  | concurrentModification (status : Nat)

/-- Locating the insertion slot, as `bind_artifact_to_module` does it
(V4 lines 147-151): `xml_find_elements` with the fixed xpath, an explicit
failure when no element matches, else the first match (`[0]`). -/
def find_insertion_slot (doc : Elem) : Except BindError Elem :=
  match pathMatches slotPath doc with
  | [] => Except.error BindError.insertionSlotNotFound
  | s :: _ => Except.ok s

mutual

/-- Apply `f` to the first element, in document order, matched by the given
child-axis path below `e`; `none` when nothing matches.  This is the
functional rendering of the in-place `insertion_point[0].append(...)`
followed by re-submitting the whole (aliased) document. -/
def updateFirstPath (f : Elem → Elem) : List String → Elem → Option Elem
  | [], e => some (f e)
  | t :: ts, e =>
      match updateFirstInList f t ts e.children with
      | none => none
      | some cs => some (Elem.mk e.tag cs)
termination_by ts _ => (ts.length, 1, 0)

/-- Helper of `updateFirstPath`: scan siblings left to right, updating
inside the first sibling of tag `t` whose subtree matches the rest of the
path, keeping every other sibling unchanged. -/
def updateFirstInList (f : Elem → Elem) (t : String) (ts : List String) :
    List Elem → Option (List Elem)
  | [] => none
  | c :: cs =>
      if c.tag = t then
        match updateFirstPath f ts c with
        | some c' => some (c' :: cs)
        | none => (updateFirstInList f t ts cs).map (fun cs' => c :: cs')
      else (updateFirstInList f t ts cs).map (fun cs' => c :: cs')
termination_by cs => (ts.length + 1, 0, cs.length)

end

/-- `slot.append(binding)` on an element (lxml `_Element.append`): the new
child becomes the last sibling. -/
def appendChild (slot binding : Elem) : Elem :=
  Elem.mk slot.tag (slot.children ++ [binding])

/-- Observable server interactions of a binding flow, in order. -/
inductive SrvAction where
  | fetchStructure
  | putStructure (ifMatch : String) (doc : Elem)
  | waitTracker (location : String)

/-- A response to the structure `PUT`. -/
structure PutResponse where
  status : Nat
  location : Option String

/-- `bind_artifact_to_module` of `CreateAndBindRequirement.For_GeminiReturnV4.py`
(lines 143-183), from the structure fetch on.  The single fetch returns the
snapshot `structure_xml` together with its concurrency token `etag`; `nb` is
the new binding element and `resp` the server's answer to the conditional
`PUT`.  Returns the result together with the trace of server interactions. -/
def bind_artifact_to_module (structure_xml : Elem) (etag : String) (nb : Elem)
    (resp : PutResponse) : Except BindError Unit × List SrvAction :=
  match updateFirstPath (fun slot => appendChild slot nb) slotPath structure_xml with
  | none => (Except.error BindError.insertionSlotNotFound, [SrvAction.fetchStructure])
  | some mutated =>
      let acts := [SrvAction.fetchStructure, SrvAction.putStructure etag mutated]
      if resp.status = 200 ∨ resp.status = 201 ∨ resp.status = 202 then
        match resp.location with
        | some loc =>
            if resp.status = 202 then (Except.ok (), acts ++ [SrvAction.waitTracker loc])
            else (Except.ok (), acts)
        | none => (Except.ok (), acts)
      else (Except.error (BindError.concurrentModification resp.status), acts)

/-- The RDFXML binding flow of `CreateAndBindRequirement.For_Gemini.py`
(lines 450-505): the structure is fetched once *without* the etag (line 452)
and mutated, the etag comes from a *second* fetch (line 457), the mutated
document is `PUT` with that etag, and the response status is never checked —
on 202-with-location the tracker is awaited, then the structure is re-fetched
and the flow continues regardless of the status. -/
def bind_rdfxml_gemini (structure_xml : Elem) (etagFetch2 : String) (nb : Elem)
    (resp : PutResponse) : Except BindError Unit × List SrvAction :=
  match updateFirstPath (fun slot => appendChild slot nb) slotPath structure_xml with
  | none =>
      -- `xml_find_elements(...)[0]` raises an uncaught IndexError: no slot check
      (Except.error BindError.insertionSlotNotFound,
        [SrvAction.fetchStructure, SrvAction.fetchStructure])
  | some mutated =>
      let acts := [SrvAction.fetchStructure, SrvAction.fetchStructure,
                   SrvAction.putStructure etagFetch2 mutated]
      match resp.location with
      | some loc =>
          if resp.status = 202 then
            (Except.ok (), acts ++ [SrvAction.waitTracker loc, SrvAction.fetchStructure])
          else (Except.ok (), acts ++ [SrvAction.fetchStructure])
      | none => (Except.ok (), acts ++ [SrvAction.fetchStructure])

/-- `getsectionnumber(headinglevel)` (`CreateAndBindRequirement.For_Gemini.py`
lines 122-130): each `[hn, tn]` pair renders as `"hn-tn"` when `tn` is
truthy (nonzero) and as `"hn"` otherwise, and the renderings are joined with
`"."`.  The list runs from the outermost open level to the innermost. -/
def getsectionnumber (headinglevel : List (Nat × Nat)) : String :=
  String.intercalate "."
    (headinglevel.map (fun p =>
      if p.2 ≠ 0 then toString p.1 ++ "-" ++ toString p.2 else toString p.1))

/-- Rendering of one `(headingCount, subCount)` level as the spec words it:
the `headingCount`, "suffixed with `-subCount` when `subCount` is nonzero". -/
def renderLevelSpec (p : Nat × Nat) : String :=
  toString p.1 ++ (if p.2 ≠ 0 then "-" ++ toString p.2 else "")

/-- The spec's wording of the label: "the dot-joined sequence, across all
currently-open levels from outermost to innermost" of the level renderings
(spec §4.3, to be compared with `getsectionnumber`). -/
def renderLabelSpec : List (Nat × Nat) → String
  | [] => ""
  | [p] => renderLevelSpec p
  | p :: q :: rest => renderLevelSpec p ++ "." ++ renderLabelSpec (q :: rest)

/-- A record of the flat-list (JSON) structure resource, with the fields the
script reads (`uri`, `isStructureRoot`, `isHeading`, `childBindings`). -/
structure JsonRecord where
  uri : String
  isStructureRoot : Bool
  isHeading : Bool
  childBindings : List String

/-- Errors of the JSON binding flow of `CreateAndBindRequirement.For_Gemini.py`. -/
inductive JsonBindError where
  | structureMalformed  -- `raise Exception("Root not at start of structure!")`
  | emptyStructure      -- IndexError from `modstructure_j[0]` on an empty list

/-- The JSON-form decode-and-mutate step (`CreateAndBindRequirement.For_Gemini.py`
lines 566-608): the first record must carry the `isStructureRoot` flag,
otherwise the flow aborts before any mutation; on success the placeholder
binding uri is appended to the root record's `childBindings` and the new
binding record is appended to the flat list. -/
def json_bind_mutation (modstructure : List JsonRecord) (tempbindingUri : String)
    (newbinding : JsonRecord) : Except JsonBindError (List JsonRecord) :=
  match modstructure with
  | [] => Except.error JsonBindError.emptyStructure
  | root :: rest =>
      if !root.isStructureRoot then Except.error JsonBindError.structureMalformed
      else
        Except.ok
          ({ root with childBindings := root.childBindings ++ [tempbindingUri] }
            :: rest ++ [newbinding])

/-- A binding node of the module structure in the JSON flow, with its child
bindings resolved (the script resolves them through the `entries` table keyed
by uri; a well-formed structure resolves to this rooted ordered tree). -/
inductive JBinding where
  | mk (uri : String) (isHeading : Bool) (children : List JBinding)

def JBinding.uri : JBinding → String
  | .mk u _ _ => u

def JBinding.isHeading : JBinding → Bool
  | .mk _ ih _ => ih

def JBinding.children : JBinding → List JBinding
  | .mk _ _ cs => cs

mutual

def jsize : JBinding → Nat
  | .mk _ _ cs => 1 + jsizeList cs

def jsizeList : List JBinding → Nat
  | [] => 0
  | b :: bs => jsize b + 1 + jsizeList bs

end

/-- The walk events `json_structure_walk` yields, with the `isHeading` value
the numbering loop reads off the yielded record. -/
inductive WalkEvent where
  | start (isHeading : Bool)
  | endNode (isHeading : Bool)
  | startChildren (isHeading : Bool)
  | endChildren (isHeading : Bool)

mutual

/-- `recursiveiterator(uri)` of `json_structure_walk`
(`CreateAndBindRequirement.For_Gemini.py` lines 634-643): yield `start`,
`startChildren`, the children's walks, `endChildren`, `end`. -/
def jsonWalkAux : JBinding → List WalkEvent
  | JBinding.mk _ ih cs =>
      WalkEvent.start ih :: WalkEvent.startChildren ih ::
        (jsonWalkList cs ++ [WalkEvent.endChildren ih, WalkEvent.endNode ih])
termination_by b => jsize b
decreasing_by simp only [jsize]; omega

def jsonWalkList : List JBinding → List WalkEvent
  | [] => []
  | b :: bs => jsonWalkAux b ++ jsonWalkList bs
termination_by bs => jsizeList bs
decreasing_by
  all_goals simp only [jsizeList]
  all_goals omega

end

/-- `json_structure_walk(rooturi, entries)` as driven from the root
(`suppressyield=True`): the root's own `start`/`end` are suppressed but its
`startChildren`/`endChildren` are yielded. -/
def json_structure_walk (root : JBinding) : List WalkEvent :=
  WalkEvent.startChildren root.isHeading ::
    (jsonWalkList root.children ++ [WalkEvent.endChildren root.isHeading])

/-- One iteration of the JSON numbering loop
(`CreateAndBindRequirement.For_Gemini.py` lines 658-694) on one walk event.
`startChildren` pushes a fresh `[0,0]` pair, `endChildren` pops
(`headinglevel.pop()` — an IndexError, modelled as `none`, on an empty
stack), a `start` updates the top-of-stack pair in place
(`headinglevel[-1]` — IndexError on an empty stack) and emits the label
`getsectionnumber(headinglevel)`; an `end` event leaves the state alone. -/
def visitStep (headinglevel : List (Nat × Nat)) :
    WalkEvent → Option (List (Nat × Nat) × Option String)
  | WalkEvent.startChildren _ => some (headinglevel ++ [(0, 0)], none)
  | WalkEvent.endChildren _ =>
      if headinglevel.isEmpty then none
      else some (headinglevel.dropLast, none)
  | WalkEvent.endNode _ => some (headinglevel, none)
  | WalkEvent.start isheading =>
      match headinglevel.getLast? with
      | none => none
      | some (hn, tn) =>
          let newtop := if isheading then (hn + 1, 0) else (hn, tn + 1)
          let hl := headinglevel.dropLast ++ [newtop]
          some (hl, some (getsectionnumber hl))

/-- Run the numbering loop over a list of walk events, accumulating the
printed section labels; `none` when a counter update would have accessed an
empty stack. -/
def runNumbering (headinglevel : List (Nat × Nat)) (labels : List String) :
    List WalkEvent → Option (List (Nat × Nat) × List String)
  | [] => some (headinglevel, labels)
  | ev :: evs =>
      match visitStep headinglevel ev with
      | none => none
      | some (hl, lbl) => runNumbering hl (labels ++ lbl.toList) evs

/-- rdf:type markers of the creation payload built by
`CreateAndBindRequirement.For_Gemini.py` lines 285-338: the plain payload is
chosen by `if "Requirement" == sys.argv[1]`, every *other* artifact type gets
the payload with the two extra heading markers ("Heading" assumed). -/
def payloadTypeMarkers_gemini (artifactType : String) : List String :=
  if artifactType = "Requirement" then
    ["http://open-services.net/ns/rm#Requirement"]
  else
    ["http://open-services.net/ns/rm#Requirement",
     "https://hep.continental.com/ns/automotive/rm/ty/heading",
     "http://jazz.net/ns/rm#Text"]

/-- rdf:type markers of the creation payload of
`CreateAndBindRequirement.For_GeminiReturnV2.py` lines 100-117: the two extra
markers are interpolated exactly `if artifact_type == "Heading"`. -/
def payloadTypeMarkers_v2 (artifactType : String) : List String :=
  if artifactType = "Heading" then
    ["http://open-services.net/ns/rm#Requirement",
     "https://hep.continental.com/ns/automotive/rm/ty/heading",
     "http://jazz.net/ns/rm#Text"]
  else
    ["http://open-services.net/ns/rm#Requirement"]

/-- rdf:type markers of the creation payload of
`CreateAndBindRequirement.For_GeminiReturnV4.py` lines 72-86: the payload is
a single fixed template with no conditional, whatever the artifact type. -/
def payloadTypeMarkers_v4 (_artifactType : String) : List String :=
  ["http://open-services.net/ns/rm#Requirement"]

/-- The heading type marker. -/
def headingMarker : String := "https://hep.continental.com/ns/automotive/rm/ty/heading"

/-- The `Text` type marker. -/
def textMarker : String := "http://jazz.net/ns/rm#Text"

/-! ### Concrete fixtures used by the claim checks -/

/-- Shorthand: a `rm_modules:Binding` element. -/
def bindingEl (cs : List Elem) : Elem := Elem.mk "rm_modules:Binding" cs

/-- Shorthand: a `rm_modules:childBindings` container element. -/
def childBindingsEl (cs : List Elem) : Elem := Elem.mk "rm_modules:childBindings" cs

/-- A structure document in which the *first* top-level binding has no
children-container but the *second* one has: the fixed first-first slot is
absent while the insertion xpath still matches. -/
def docSecondHeading : Elem :=
  Elem.mk "rdf"
    [bindingEl
      [childBindingsEl
        [bindingEl [],
         bindingEl [childBindingsEl []]]]]

/-- A well-shaped structure document whose fixed two-level slot exists. -/
def docWithSlot : Elem :=
  Elem.mk "rdf"
    [bindingEl
      [childBindingsEl
        [bindingEl [childBindingsEl [bindingEl []]]]]]

/-- The fixed slot of `docWithSlot`. -/
def docWithSlotSlot : Elem := childBindingsEl [bindingEl []]

/-- A fresh binding element to insert. -/
def newBindingEl : Elem := Elem.mk "rm_modules:Binding" []

/-- `docWithSlot` after appending `newBindingEl` to its fixed slot. -/
def docWithSlotMutated : Elem :=
  Elem.mk "rdf"
    [bindingEl
      [childBindingsEl
        [bindingEl [childBindingsEl [bindingEl [], newBindingEl]]]]]

/-- A heading binding with the given children (JSON walk fixture). -/
def jheading (u : String) (cs : List JBinding) : JBinding := JBinding.mk u true cs

/-- A non-heading leaf binding (JSON walk fixture). -/
def jleaf (u : String) : JBinding := JBinding.mk u false []

/-- The five-node single-level walk of the claim: heading, non-heading,
heading, non-heading, non-heading, all direct children of the root. -/
def flatFiveTree : JBinding :=
  JBinding.mk "root" false
    [jheading "h1" [], jleaf "n1", jheading "h2" [], jleaf "n2", jleaf "n3"]

/-- A heading containing a heading containing a non-heading leaf. -/
def nestedTree : JBinding :=
  JBinding.mk "root" false [jheading "h1" [jheading "h2" [jleaf "n1"]]]

/-! ### Helper lemmas -/

theorem intercalate_go_append (t : List String) :
    ∀ (a b s : String),
      String.intercalate.go (a ++ b) s t = a ++ String.intercalate.go b s t := by
  induction t with
  | nil => intro a b s; simp [String.intercalate.go]
  | cons x xs ih =>
      intro a b s
      show String.intercalate.go (a ++ b ++ s ++ x) s xs
        = a ++ String.intercalate.go (b ++ s ++ x) s xs
      rw [String.append_assoc, String.append_assoc, ← String.append_assoc b s x]
      exact ih a (b ++ s ++ x) s

theorem intercalate_cons_cons (s a b : String) (t : List String) :
    String.intercalate s (a :: b :: t) = a ++ s ++ String.intercalate s (b :: t) := by
  show String.intercalate.go a s (b :: t) = a ++ s ++ String.intercalate.go b s t
  show String.intercalate.go (a ++ s ++ b) s t = a ++ s ++ String.intercalate.go b s t
  exact intercalate_go_append t (a ++ s) b s

theorem renderLevelSpec_eq (p : Nat × Nat) :
    (if p.2 ≠ 0 then toString p.1 ++ "-" ++ toString p.2 else toString p.1)
      = renderLevelSpec p := by
  by_cases h : p.2 = 0
  · simp [renderLevelSpec, h]
  · simp only [renderLevelSpec, h, if_pos, ne_eq, not_false_iff, if_neg]
    rw [String.append_assoc]

theorem getsectionnumber_eq_spec : ∀ hl, getsectionnumber hl = renderLabelSpec hl := by
  intro hl
  induction hl with
  | nil => rfl
  | cons p rest ih =>
      cases rest with
      | nil =>
          simp only [getsectionnumber, List.map_cons, List.map_nil, renderLabelSpec]
          rw [renderLevelSpec_eq]
          rfl
      | cons q rest2 =>
          simp only [getsectionnumber, List.map_cons] at ih ⊢
          rw [intercalate_cons_cons, renderLevelSpec_eq]
          show renderLevelSpec p ++ "." ++ _ = renderLabelSpec (p :: q :: rest2)
          rw [ih]
          rfl

theorem flatMapMatches_head (ts : List String) (t : String) (s : Elem)
    (ih : ∀ e s2, navFirsts ts e = some s2 → (pathMatches ts e).head? = some s2) :
    ∀ (cs : List Elem) (c : Elem),
      cs.find? (fun c => c.tag = t) = some c →
      navFirsts ts c = some s →
      (cs.flatMap (fun c => if c.tag = t then pathMatches ts c else [])).head? = some s := by
  intro cs
  induction cs with
  | nil => intro c hfind; simp [List.find?] at hfind
  | cons c0 cs2 ihc =>
      intro c hfind hnav
      by_cases hc : c0.tag = t
      · rw [List.find?_cons_of_pos _ (by simpa using hc)] at hfind
        have hc0 : c0 = c := by simpa using hfind
        subst hc0
        have hhead := ih c0 s hnav
        rw [List.flatMap_cons, if_pos hc]
        cases hpm : pathMatches ts c0 with
        | nil => rw [hpm] at hhead; simp at hhead
        | cons x xs =>
            rw [hpm] at hhead
            simp only [List.head?] at hhead
            simpa using hhead
      · rw [List.find?_cons_of_neg _ (by simpa using hc)] at hfind
        rw [List.flatMap_cons, if_neg hc, List.nil_append]
        exact ihc c hfind hnav

theorem pathMatches_head_of_navFirsts :
    ∀ (ts : List String) (e s : Elem),
      navFirsts ts e = some s → (pathMatches ts e).head? = some s := by
  intro ts
  induction ts with
  | nil =>
      intro e s h
      simp only [navFirsts, Option.some.injEq] at h
      subst h
      rfl
  | cons t ts ih =>
      intro e s h
      simp only [navFirsts] at h
      simp only [pathMatches]
      cases hfind : e.children.find? (fun c => c.tag = t) with
      | none => rw [hfind] at h; cases h
      | some c =>
          rw [hfind] at h
          exact flatMapMatches_head ts t s ih e.children c hfind h

/-! ### Claim theorems -/

/-- C2: appending a new binding to an insertion slot leaves all previously
existing siblings in their original relative order (dropping the last
element of the new children sequence gives back exactly the old sequence)
and places the new binding last; likewise in the JSON flow the placeholder
uri is appended as the last child reference of the root record, preserving
the existing references. -/
theorem c2_appendChild_order (slot nb : Elem) (root : JsonRecord)
    (rest : List JsonRecord) (u : String) (nbrec : JsonRecord)
    (hroot : root.isStructureRoot = true) :
    (appendChild slot nb).children.dropLast = slot.children
    ∧ (appendChild slot nb).children.getLast? = some nb
    ∧ ∃ rootOut tail,
        json_bind_mutation (root :: rest) u nbrec = Except.ok (rootOut :: tail)
        ∧ rootOut.childBindings.dropLast = root.childBindings
        ∧ rootOut.childBindings.getLast? = some u := by
  refine ⟨?_, ?_, ?_⟩
  · cases slot
    simp [appendChild, Elem.children, List.dropLast_concat]
  · cases slot
    simp [appendChild, Elem.children, List.getLast?_concat]
  · refine ⟨{ root with childBindings := root.childBindings ++ [u] }, rest ++ [nbrec], ?_, ?_, ?_⟩
    · simp [json_bind_mutation, hroot]
    · simp [List.dropLast_concat]
    · simp [List.getLast?_concat]

/-- C2 witness: the properties at a concrete slot, binding and flat list. -/
theorem c2_appendChild_order_witness :
    (appendChild docWithSlotSlot newBindingEl).children.dropLast = docWithSlotSlot.children
    ∧ (appendChild docWithSlotSlot newBindingEl).children.getLast? = some newBindingEl
    ∧ ∃ rootOut tail,
        json_bind_mutation [⟨"r", true, false, ["a", "b"]⟩] "tmp" ⟨"nb", false, false, []⟩
          = Except.ok (rootOut :: tail)
        ∧ rootOut.childBindings.dropLast = ["a", "b"]
        ∧ rootOut.childBindings.getLast? = some "tmp" :=
  c2_appendChild_order docWithSlotSlot newBindingEl ⟨"r", true, false, ["a", "b"]⟩ []
    "tmp" ⟨"nb", false, false, []⟩ rfl

/-- C3: the numbering transition increments the heading counter and resets
the sub-counter at the top of the stack on a heading visit, increments only
the sub-counter on a non-heading visit, and on the five-node single-level
walk heading, non-heading, heading, non-heading, non-heading produces
exactly the labels "1", "1-1", "2", "2-1", "2-2". -/
theorem c3_numbering_flat_walk :
    (∀ (hl : List (Nat × Nat)) (hn tn : Nat),
      visitStep (hl ++ [(hn, tn)]) (WalkEvent.start true)
        = some (hl ++ [(hn + 1, 0)], some (getsectionnumber (hl ++ [(hn + 1, 0)])))
      ∧ visitStep (hl ++ [(hn, tn)]) (WalkEvent.start false)
        = some (hl ++ [(hn, tn + 1)], some (getsectionnumber (hl ++ [(hn, tn + 1)]))))
    ∧ runNumbering [] [] (json_structure_walk flatFiveTree)
        = some ([], ["1", "1-1", "2", "2-1", "2-2"]) := by
  constructor
  · intro hl hn tn
    constructor
    · simp [visitStep, List.getLast?_concat, List.dropLast_concat]
    · simp [visitStep, List.getLast?_concat, List.dropLast_concat]
  · simp [json_structure_walk, flatFiveTree, jheading, jleaf, jsonWalkAux, jsonWalkList,
      runNumbering, visitStep, getsectionnumber, JBinding.children, JBinding.isHeading]
    decide

/-- C4 counterexample: on the walk heading ⊃ heading ⊃ non-heading leaf the
engine produces the labels "1", "1.1", "1.1.0-1" — not "1", "1.1", "1.1-1"
as claimed: the leaf is visited inside the freshly opened third level, whose
heading counter is still 0. -/
theorem c4_nested_walk_counterexample :
    runNumbering [] [] (json_structure_walk nestedTree)
      = some ([], ["1", "1.1", "1.1.0-1"])
    ∧ (["1", "1.1", "1.1.0-1"] : List String) ≠ ["1", "1.1", "1.1-1"] := by
  constructor
  · simp [json_structure_walk, nestedTree, jheading, jleaf, jsonWalkAux, jsonWalkList,
      runNumbering, visitStep, getsectionnumber, JBinding.children, JBinding.isHeading]
    decide
  · decide

/-- C4 (amended): for the walk that enters two nested levels in a row — a
heading containing a heading containing a non-heading leaf — the engine
produces the labels "1", "1.1" and "1.1.0-1": before the leaf is visited the
walk has already opened the third level, so the leaf's label carries that
level's `0` heading counter with sub-counter 1. -/
theorem c4_nested_walk_labels :
    runNumbering [] [] (json_structure_walk nestedTree)
      = some ([], ["1", "1.1", "1.1.0-1"]) := by
  simp [json_structure_walk, nestedTree, jheading, jleaf, jsonWalkAux, jsonWalkList,
    runNumbering, visitStep, getsectionnumber, JBinding.children, JBinding.isHeading]
  decide

/-- C5: the label renders every open level's heading counter, outermost
first, joined with dots, suffixing `-subCount` exactly at the levels whose
sub-counter is nonzero; in particular `[(2,0),(1,3)]` renders "2.1-3". -/
theorem c5_getsectionnumber_rendering :
    (∀ hl, getsectionnumber hl = renderLabelSpec hl)
    ∧ getsectionnumber [(2, 0), (1, 3)] = "2.1-3" := by
  refine ⟨getsectionnumber_eq_spec, ?_⟩
  decide

/-- C7: decoding the flat-list structure whose first record does not carry
the is-structure-root flag fails with the malformed-structure error and
performs no mutation, rather than misidentifying another record as root. -/
theorem c7_root_flag_check (root : JsonRecord) (rest : List JsonRecord)
    (u : String) (nbrec : JsonRecord) (hroot : root.isStructureRoot = false) :
    json_bind_mutation (root :: rest) u nbrec
      = Except.error JsonBindError.structureMalformed := by
  simp [json_bind_mutation, hroot]

/-- C7 witness: a concrete flat list whose first record is not flagged. -/
theorem c7_root_flag_check_witness :
    json_bind_mutation [⟨"a", false, false, []⟩, ⟨"b", true, false, []⟩] "tmp"
        ⟨"nb", false, false, []⟩
      = Except.error JsonBindError.structureMalformed :=
  c7_root_flag_check ⟨"a", false, false, []⟩ [⟨"b", true, false, []⟩] "tmp"
    ⟨"nb", false, false, []⟩ rfl

/-- C8 counterexample: the original script's payload embeds the extra
heading markers for *every* artifact type other than the string
"Requirement" (here "Stakeholder Requirement"), and the V4 refactor omits
them even for "Heading" — so the markers are not embedded exactly when the
requested type is "Heading". -/
theorem c8_heading_markers_counterexample :
    headingMarker ∈ payloadTypeMarkers_gemini "Stakeholder Requirement"
    ∧ ("Stakeholder Requirement" : String) ≠ "Heading"
    ∧ headingMarker ∉ payloadTypeMarkers_v4 "Heading" := by
  refine ⟨?_, by decide, ?_⟩
  · simp [payloadTypeMarkers_gemini, headingMarker]
  · simp [payloadTypeMarkers_v4, headingMarker]

/-- C8 (amended): only the V2 refactor embeds the extra heading markers
exactly when the artifact type is "Heading"; the original script embeds
them exactly when the type is anything other than "Requirement", and the V4
refactor never embeds them. -/
theorem c8_heading_markers (t : String) :
    (headingMarker ∈ payloadTypeMarkers_v2 t ↔ t = "Heading")
    ∧ (textMarker ∈ payloadTypeMarkers_v2 t ↔ t = "Heading")
    ∧ (headingMarker ∈ payloadTypeMarkers_gemini t ↔ t ≠ "Requirement")
    ∧ headingMarker ∉ payloadTypeMarkers_v4 t := by
  refine ⟨?_, ?_, ?_, ?_⟩
  · by_cases h : t = "Heading" <;>
      simp [payloadTypeMarkers_v2, h, headingMarker]
  · by_cases h : t = "Heading" <;>
      simp [payloadTypeMarkers_v2, h, textMarker]
  · by_cases h : t = "Requirement" <;>
      simp [payloadTypeMarkers_gemini, h, headingMarker]
  · simp [payloadTypeMarkers_v4, headingMarker]

/-- C1 counterexample: a structure tree in which the fixed two-level
first-first path does not exist (the first top-level binding has no
children-container), yet the slot lookup silently returns a different node —
the children-container of the *second* top-level binding — instead of
failing with the not-found error. -/
theorem c1_insertion_slot_counterexample :
    navFirsts slotPath docSecondHeading = none
    ∧ find_insertion_slot docSecondHeading = Except.ok (childBindingsEl []) :=
  ⟨rfl, rfl⟩

/-- C1 (amended): the slot lookup fails with `InsertionSlotNotFound` exactly
when *no* element in the tree matches the two-level path
`Binding/childBindings/Binding/childBindings`; when the fixed first-first
path exists its endpoint is the first match in document order and is the
node returned, but when only a later match exists that match is returned
silently. -/
theorem c1_insertion_slot (doc : Elem) :
    (find_insertion_slot doc = Except.error BindError.insertionSlotNotFound
      ↔ pathMatches slotPath doc = [])
    ∧ (∀ s, navFirsts slotPath doc = some s
        → find_insertion_slot doc = Except.ok s) := by
  constructor
  · cases hm : pathMatches slotPath doc with
    | nil => simp [find_insertion_slot, hm]
    | cons x xs => simp [find_insertion_slot, hm]
  · intro s h
    have hh := pathMatches_head_of_navFirsts slotPath doc s h
    cases hm : pathMatches slotPath doc with
    | nil => rw [hm] at hh; cases hh
    | cons x xs =>
        rw [hm] at hh
        simp only [List.head?, Option.some.injEq] at hh
        simp [find_insertion_slot, hm, hh]

/-- C1 witness: on a well-shaped tree whose fixed two-level slot exists, the
lookup returns exactly that slot. -/
theorem c1_insertion_slot_witness :
    find_insertion_slot docWithSlot = Except.ok docWithSlotSlot :=
  (c1_insertion_slot docWithSlot).2 docWithSlotSlot rfl

/-- C6 counterexample: in the original RDFXML flow the `PUT` response status
is never checked — with a token-mismatch response (status 412) the flow
still reports success and proceeds, instead of failing with a
concurrent-modification error; moreover the `If-Match` token it sends comes
from a second fetch, not from the fetch that produced the mutated
snapshot. -/
theorem c6_conditional_update_counterexample :
    (bind_rdfxml_gemini docWithSlot "etag-1" newBindingEl ⟨412, none⟩).1
      = Except.ok ()
    ∧ ¬((412 : Nat) = 200 ∨ (412 : Nat) = 201 ∨ (412 : Nat) = 202) := by
  constructor
  · simp [bind_rdfxml_gemini, updateFirstPath, updateFirstInList, appendChild, docWithSlot,
      slotPath, bindingEl, childBindingsEl, newBindingEl, Elem.tag, Elem.children]
  · decide

/-- C6 (amended): in the refactored bind function the update is submitted
exactly once, guarded by the concurrency token returned by the same fetch
that produced the mutated snapshot, and a non-success response makes the
protocol fail with the concurrent-modification error with no retry and no
action after the failed `PUT`; the original RDFXML flow instead takes its
token from a second, separate fetch and ignores the response status,
reporting success even on a conflict. -/
theorem c6_conditional_update (doc mutated : Elem) (etag : String) (nb : Elem)
    (resp : PutResponse)
    (hmut : updateFirstPath (fun slot => appendChild slot nb) slotPath doc
      = some mutated)
    (hbad : ¬(resp.status = 200 ∨ resp.status = 201 ∨ resp.status = 202)) :
    bind_artifact_to_module doc etag nb resp
      = (Except.error (BindError.concurrentModification resp.status),
         [SrvAction.fetchStructure, SrvAction.putStructure etag mutated])
    ∧ (bind_rdfxml_gemini doc etag nb resp).1 = Except.ok () := by
  constructor
  · simp [bind_artifact_to_module, hmut, hbad]
  · have h202 : ¬resp.status = 202 := fun h => hbad (Or.inr (Or.inr h))
    cases hloc : resp.location with
    | none => simp [bind_rdfxml_gemini, hmut, hloc]
    | some loc => simp [bind_rdfxml_gemini, hmut, hloc, h202]

/-- C6 witness: at a concrete document, token and a 412 response. -/
theorem c6_conditional_update_witness :
    bind_artifact_to_module docWithSlot "etag-1" newBindingEl ⟨412, none⟩
      = (Except.error (BindError.concurrentModification 412),
         [SrvAction.fetchStructure, SrvAction.putStructure "etag-1" docWithSlotMutated])
    ∧ (bind_rdfxml_gemini docWithSlot "etag-1" newBindingEl ⟨412, none⟩).1
      = Except.ok () :=
  c6_conditional_update docWithSlot docWithSlotMutated "etag-1" newBindingEl ⟨412, none⟩
    (by simp [updateFirstPath, updateFirstInList, appendChild, docWithSlot, docWithSlotMutated,
      slotPath, bindingEl, childBindingsEl, newBindingEl, Elem.tag, Elem.children])
    (by decide)

theorem jsize_pos (b : JBinding) : 1 ≤ jsize b := by
  cases b
  simp [jsize]

theorem runNumbering_append (evs1 : List WalkEvent) :
    ∀ (evs2 : List WalkEvent) (hl : List (Nat × Nat)) (acc : List String)
      (hl1 : List (Nat × Nat)) (acc1 : List String),
      runNumbering hl acc evs1 = some (hl1, acc1) →
      runNumbering hl acc (evs1 ++ evs2) = runNumbering hl1 acc1 evs2 := by
  induction evs1 with
  | nil =>
      intro evs2 hl acc hl1 acc1 h
      simp only [runNumbering, Option.some.injEq, Prod.mk.injEq] at h
      rw [List.nil_append, h.1, h.2]
  | cons ev evs ih =>
      intro evs2 hl acc hl1 acc1 h
      rw [List.cons_append]
      simp only [runNumbering] at h ⊢
      cases hv : visitStep hl ev with
      | none => rw [hv] at h; cases h
      | some p =>
          obtain ⟨a, lbl⟩ := p
          rw [hv] at h
          exact ih evs2 a (acc ++ lbl.toList) hl1 acc1 h

theorem numbering_ok_ind : ∀ n : Nat,
    (∀ b : JBinding, jsize b ≤ n →
      ∀ (hl : List (Nat × Nat)) (acc : List String), hl ≠ [] →
        ∃ hl2 acc2, runNumbering hl acc (jsonWalkAux b) = some (hl2, acc2)
          ∧ hl2.length = hl.length)
    ∧ (∀ bs : List JBinding, jsizeList bs ≤ n →
      ∀ (hl : List (Nat × Nat)) (acc : List String), hl ≠ [] →
        ∃ hl2 acc2, runNumbering hl acc (jsonWalkList bs) = some (hl2, acc2)
          ∧ hl2.length = hl.length) := by
  intro n
  induction n using Nat.strong_induction_on with
  | _ n ih =>
  constructor
  · rintro ⟨u, ihd, cs⟩ hsz hl acc hne
    have hsz' : jsizeList cs + 1 ≤ n := by
      simpa [jsize, Nat.add_comm] using hsz
    obtain ⟨p, hp⟩ : ∃ p, hl.getLast? = some p := by
      cases hlast : hl.getLast? with
      | none => exact absurd (List.getLast?_eq_none_iff.mp hlast) hne
      | some p => exact ⟨p, rfl⟩
    obtain ⟨ph, pt⟩ := p
    have hpos : 0 < hl.length := List.length_pos.mpr hne
    rw [show jsonWalkAux (JBinding.mk u ihd cs)
        = WalkEvent.start ihd :: WalkEvent.startChildren ihd ::
            (jsonWalkList cs ++ [WalkEvent.endChildren ihd, WalkEvent.endNode ihd])
      from by simp [jsonWalkAux]]
    simp only [runNumbering, visitStep, hp, Option.toList, List.append_nil]
    have hlist := (ih (jsizeList cs) (by omega)).2 cs le_rfl
      ((hl.dropLast ++ [if ihd = true then (ph + 1, 0) else (ph, pt + 1)]) ++ [(0, 0)])
      (acc ++ [getsectionnumber
          (hl.dropLast ++ [if ihd = true then (ph + 1, 0) else (ph, pt + 1)])])
      (by simp)
    obtain ⟨hl3, acc3, hrun, hlen⟩ := hlist
    rw [runNumbering_append (jsonWalkList cs) _ _ _ _ _ hrun]
    have hlen3 : hl3.length = hl.length + 1 := by
      rw [hlen]
      simp
      omega
    have hne3 : hl3.isEmpty = false := by
      simp [List.isEmpty_iff]
      intro hc
      rw [hc] at hlen3
      simp at hlen3
    simp only [runNumbering, visitStep, hne3, Bool.false_eq_true, if_neg, ite_false,
      Option.toList, List.append_nil]
    refine ⟨hl3.dropLast, acc3, rfl, ?_⟩
    rw [List.length_dropLast, hlen3]
    omega
  · intro bs hsz hl acc hne
    cases bs with
    | nil =>
        refine ⟨hl, acc, ?_, rfl⟩
        rw [show jsonWalkList [] = ([] : List WalkEvent) from by simp [jsonWalkList]]
        rfl
    | cons b bs2 =>
        have hszb : jsize b + 1 + jsizeList bs2 ≤ n := by
          simpa [jsizeList] using hsz
        have hbpos := jsize_pos b
        rw [show jsonWalkList (b :: bs2) = jsonWalkAux b ++ jsonWalkList bs2
          from by simp [jsonWalkList]]
        obtain ⟨hl2, acc2, hrun1, hlen1⟩ :=
          (ih (n - 1) (by omega)).1 b (by omega) hl acc hne
        rw [runNumbering_append (jsonWalkAux b) _ _ _ _ _ hrun1]
        have hne2 : hl2 ≠ [] := by
          intro hc
          rw [hc] at hlen1
          exact hne (List.eq_nil_of_length_eq_zero hlen1.symm)
        obtain ⟨hl3, acc3, hrun2, hlen2⟩ :=
          (ih (n - 1) (by omega)).2 bs2 (by omega) hl2 acc2 hne2
        exact ⟨hl3, acc3, hrun2, by rw [hlen2, hlen1]⟩

/-- C10: on any walk of a well-formed structure tree started at the
structure root, the numbering engine never accesses an empty counter stack:
the run completes (`some`), every level push is matched by its pop (the
final stack is empty again), and the opening `startChildren` event precedes
the first node visit. -/
theorem c10_numbering_stack_safe (root : JBinding) :
    ∃ labels, runNumbering [] [] (json_structure_walk root) = some ([], labels) := by
  obtain ⟨hl3, acc3, hrun, hlen⟩ :=
    (numbering_ok_ind (jsizeList root.children)).2 root.children le_rfl
      [(0, 0)] [] (by simp)
  refine ⟨acc3, ?_⟩
  rw [json_structure_walk]
  simp only [runNumbering, visitStep, Option.toList, List.append_nil, List.nil_append]
  rw [runNumbering_append (jsonWalkList root.children) _ _ _ _ _ hrun]
  have hne0 : hl3 ≠ [] := by
    intro hc
    rw [hc] at hlen
    simp at hlen
  have hne3 : hl3.isEmpty = false := by
    simp [List.isEmpty_iff, hne0]
  have hdrop : hl3.dropLast = [] := by
    apply List.eq_nil_of_length_eq_zero
    rw [List.length_dropLast, hlen]
    rfl
  have hv : visitStep hl3 (WalkEvent.endChildren root.isHeading)
      = some (hl3.dropLast, none) := by
    simp [visitStep, hne3]
  rw [show runNumbering hl3 acc3 [WalkEvent.endChildren root.isHeading]
      = match visitStep hl3 (WalkEvent.endChildren root.isHeading) with
        | none => none
        | some (hl, lbl) => runNumbering hl (acc3 ++ lbl.toList) []
    from rfl, hv, hdrop]
  simp [runNumbering]

theorem esize_ge_two (e : Elem) : 2 ≤ esize e := by
  cases e
  simp [esize]

theorem walk_equiv_ind (ev tg : List String) : ∀ n : Nat,
    (∀ (e : Elem) (rest : List WalkEntry), 2 * esize e ≤ n → rest ≠ [] →
      iterwalkRun ev tg ((e, none) :: rest)
        = iterwalk1Aux ev tg e ++ iterwalkRun ev tg rest)
    ∧ (∀ (cs : List Elem) (e : Elem) (rest : List WalkEntry),
        2 * esizeList cs + 1 ≤ n →
      iterwalkRun ev tg ((e, some cs) :: rest)
        = iterwalk1List ev tg cs
          ++ (if !rest.isEmpty && emitGuard tg ev "end" e then [("end", e)] else [])
          ++ iterwalkRun ev tg rest) := by
  intro n
  induction n using Nat.strong_induction_on with
  | _ n ih =>
  constructor
  · rintro ⟨t, cs⟩ rest hsz hrest
    have hE : esize (Elem.mk t cs) = 2 + esizeList cs := by simp [esize]
    have hlt : 2 * esize (Elem.mk t cs) - 1 < n := by omega
    have hsz2 : 2 * esizeList cs + 1 ≤ 2 * esize (Elem.mk t cs) - 1 := by omega
    have hlist := (ih _ hlt).2 cs (Elem.mk t cs) rest hsz2
    rw [show iterwalkRun ev tg ((Elem.mk t cs, none) :: rest)
        = (if emitGuard tg ev "start" (Elem.mk t cs)
            then [("start", Elem.mk t cs)] else [])
          ++ iterwalkRun ev tg ((Elem.mk t cs, some cs) :: rest)
      from by simp [iterwalkRun]]
    rw [hlist]
    rw [show iterwalk1Aux ev tg (Elem.mk t cs)
        = (if emitGuard tg ev "start" (Elem.mk t cs)
            then [("start", Elem.mk t cs)] else [])
          ++ iterwalk1List ev tg cs
          ++ (if emitGuard tg ev "end" (Elem.mk t cs)
              then [("end", Elem.mk t cs)] else [])
      from by simp [iterwalk1Aux, Elem.children]]
    have hre : rest.isEmpty = false := by simp [List.isEmpty_iff, hrest]
    rw [hre]
    simp [List.append_assoc]
  · intro cs e rest hsz
    cases cs with
    | nil =>
        rw [show iterwalkRun ev tg ((e, some []) :: rest)
            = (if !rest.isEmpty && emitGuard tg ev "end" e
                then [("end", e)] else [])
              ++ iterwalkRun ev tg rest
          from by simp [iterwalkRun]]
        rw [show iterwalk1List ev tg [] = [] from by simp [iterwalk1List]]
        rw [List.nil_append]
    | cons c cs2 =>
        have hL : esizeList (c :: cs2) = esize c + 1 + esizeList cs2 := by
          simp [esizeList]
        have hcpos := esize_ge_two c
        have hlt : 2 * esizeList (c :: cs2) < n := by omega
        have hnode := (ih _ hlt).1 c ((e, some cs2) :: rest)
          (by omega) (by simp)
        have hlist2 := (ih _ hlt).2 cs2 e rest (by omega)
        rw [show iterwalkRun ev tg ((e, some (c :: cs2)) :: rest)
            = iterwalkRun ev tg ((c, none) :: (e, some cs2) :: rest)
          from by simp [iterwalkRun]]
        rw [hnode, hlist2]
        rw [show iterwalk1List ev tg (c :: cs2)
            = iterwalk1Aux ev tg c ++ iterwalk1List ev tg cs2
          from by simp [iterwalk1List]]
        simp [List.append_assoc]

/-- C9: on the same root and with the same events and tags filters, the
manual-stack walker and the recursive walker yield exactly the same sequence
of (event, element) pairs. -/
theorem c9_walkers_equivalent (root : Elem) (events tags : List String) :
    iterwalk root events tags = iterwalk1 root events tags := by
  rw [show iterwalk root events tags
      = iterwalkRun (normEvents events) tags [(root, some root.children)] from rfl]
  rw [show iterwalk1 root events tags
      = iterwalk1List (normEvents events) tags root.children from rfl]
  rw [(walk_equiv_ind (normEvents events) tags (2 * esizeList root.children + 1)).2
    root.children root [] le_rfl]
  rw [show iterwalkRun (normEvents events) tags [] = [] from by simp [iterwalkRun]]
  simp
